import Mathlib

/-!
Shallow embedding of the scorecard backend core (provider registry,
metric service, store query layer) and proofs about its spec claims.

Sources embedded:
- `src/workspaces/scorecard/plugins/scorecard-backend/src/providers/MetricProvidersRegistry.ts`
- `src/workspaces/scorecard/plugins/scorecard-backend/src/service/CatalogMetricService.ts`

The database layer (`DatabaseMetricValues.ts`) and the permission utilities
(`permissionUtils.ts`) are not present in the source tree (only their tests
and callers are); those definitions are modelled from the spec and are marked
as such in their doc comments.

JavaScript `Map` objects preserve insertion order; they are modelled as
association lists with unique keys.  JavaScript thrown errors are modelled
with `Except`.  Machine numbers that the code only ever compares and copies
(metric values, timestamps) are modelled as `Int`.
-/

namespace Scorecard

/-- Association-list lookup, modelling JS `Map.prototype.get`. -/
def assocGet {α : Type} (m : List (String × α)) (k : String) : Option α :=
  match m with
  | [] => none
  | (k', v) :: rest => if k' = k then some v else assocGet rest k

/-- Association-list update, modelling JS `Map.prototype.set`:
replace in place when the key is present, append otherwise. -/
def assocSet {α : Type} (m : List (String × α)) (k : String) (v : α) :
    List (String × α) :=
  match m with
  | [] => [(k, v)]
  | (k', v') :: rest =>
    if k' = k then (k, v) :: rest else (k', v') :: assocSet rest k v

/-- Insertion-order set append, modelling JS `Set.prototype.add`. -/
def setAdd (s : List String) (x : String) : List String :=
  if x ∈ s then s else s ++ [x]

/-- Decidable prefix test on character lists. -/
def charsStartWith : List Char → List Char → Bool
  | [], _ => true
  | _ :: _, [] => false
  | x :: xs, y :: ys => x = y && charsStartWith xs ys

/-- Decidable contiguous-substring test on character lists. -/
def charsInfix (needle : List Char) : List Char → Bool
  | [] => needle.isEmpty
  | y :: rest => charsStartWith needle (y :: rest) || charsInfix needle rest

/-- JS `String.prototype.startsWith`. -/
def strStartsWith (s pre : String) : Bool :=
  charsStartWith pre.toList s.toList

/-- JS `String.prototype.includes`: contiguous substring test. -/
def strIncludes (hay needle : String) : Bool :=
  charsInfix needle.toList hay.toList

/-- ASCII lowering of one character (`String.prototype.toLowerCase`; the
strings in play are ASCII). -/
def charLower (c : Char) : Char :=
  if 'A' ≤ c ∧ c ≤ 'Z' then Char.ofNat (c.toNat + 32) else c

/-- ASCII `toLowerCase` on strings. -/
def strLower (s : String) : String :=
  ⟨s.toList.map charLower⟩

/-- The metric definition record (`Metric` of the common package). -/
structure Metric where
  id : String
  title : String
  description : String
  type : String
  history : Bool
deriving DecidableEq, Repr

/-- Ordered threshold rule set (`ThresholdConfig`); the claims under proof
only ever pass it through, so rules are kept as opaque key/expression pairs. -/
structure ThresholdConfig where
  rules : List (String × String)
deriving DecidableEq, Repr

/-- A metric provider, modelling the `MetricProvider` interface: identity,
declared type, single metric definition, and the optional batch methods
(`getMetricIds`, `getMetrics`), absent when the field is `none`. -/
structure MetricProvider where
  providerDatasourceId : String
  providerId : String
  metricType : String
  getMetric : Metric
  getMetricIds : Option (List String)
  getMetrics : Option (List Metric)
deriving DecidableEq, Repr

/-- Errors thrown by the registry and service: `generic` is a plain JS
`Error`, the others the Backstage error classes of the same name.
`validation` (`ValidationError`) is part of the spec's taxonomy; it is
included so statements can discriminate it from `generic`.
Interpolated values appear unquoted in the messages. -/
inductive RegError where
  | generic (msg : String)
  | conflict (msg : String)
  | notFound (msg : String)
  | validation (msg : String)
deriving DecidableEq, Repr

/-- True exactly for the `validation` error class. -/
def RegError.isValidation : RegError → Bool
  | .validation _ => true
  | _ => false

/-- Registry state: the `metricProviders` map (metric id → provider) and the
`datasourceIndex` map (datasource id → set of metric ids). -/
structure MetricProvidersRegistry where
  metricProviders : List (String × MetricProvider)
  datasourceIndex : List (String × List String)
deriving DecidableEq, Repr

/-- The registry in its initial state (both maps empty). -/
def emptyRegistry : MetricProvidersRegistry := ⟨[], []⟩

/-- Effective metric-id list of a provider: `getMetricIds?.() ?? [getProviderId()]`. -/
def effIds (p : MetricProvider) : List String :=
  p.getMetricIds.getD [p.providerId]

/-- Effective metric-definition list of a provider: `getMetrics?.() ?? [getMetric()]`. -/
def effMetrics (p : MetricProvider) : List Metric :=
  p.getMetrics.getD [p.getMetric]

/-- The body of the `register` loop for a single metric id: the four
validations in source order, then the two index mutations. -/
def registerStep (r : MetricProvidersRegistry) (p : MetricProvider)
    (metrics : List Metric) (metricId : String) :
    Except RegError MetricProvidersRegistry :=
  let providerDatasource := p.providerDatasourceId
  let metricType := p.metricType
  match metrics.find? (fun m => m.id == metricId) with
  | none =>
    .error (.generic ("Invalid metric provider: metric ID " ++ metricId ++
      " returned by getMetricIds() does not have a corresponding metric in getMetrics()"))
  | some metric =>
    if metricType ≠ metric.type then
      .error (.generic ("Invalid metric provider with ID " ++ metricId ++
        ", getMetricType() must match getMetric().type. Expected " ++ metricType ++
        ", but got " ++ metric.type))
    else
      let wantedPre := providerDatasource ++ "."
      if ¬ strStartsWith metricId wantedPre ∨ metricId = wantedPre then
        .error (.generic ("Invalid metric provider with ID " ++ metricId ++
          ", must have format " ++ wantedPre ++
          "<metric_name> where metric name is not empty"))
      else if (assocGet r.metricProviders metricId).isSome then
        .error (.conflict ("Metric provider with ID " ++ metricId ++
          " has already been registered"))
      else
        let mp := assocSet r.metricProviders metricId p
        let dsSet := (assocGet r.datasourceIndex providerDatasource).getD []
        let di := assocSet r.datasourceIndex providerDatasource (setAdd dsSet metricId)
        .ok ⟨mp, di⟩

/-- The `register` loop over the metric ids.  The loop mutates the registry
in place and throws on the first invalid id, so the result is the state
reached so far together with the error, if any. -/
def registerList (p : MetricProvider) (metrics : List Metric) :
    MetricProvidersRegistry → List String →
    MetricProvidersRegistry × Option RegError
  | r, [] => (r, none)
  | r, id :: rest =>
    match registerStep r p metrics id with
    | .error e => (r, some e)
    | .ok r' => registerList p metrics r' rest

/-- `register(metricProvider)`. -/
def register (r : MetricProvidersRegistry) (p : MetricProvider) :
    MetricProvidersRegistry × Option RegError :=
  registerList p (effMetrics p) r (effIds p)

/-- `getProvider(providerId)`: `NotFoundError` when the id is unregistered. -/
def getProvider (r : MetricProvidersRegistry) (providerId : String) :
    Except RegError MetricProvider :=
  match assocGet r.metricProviders providerId with
  | none =>
    .error (.notFound ("Metric provider with ID " ++ providerId ++
      " is not registered."))
  | some p => .ok p

/-- `getMetric(providerId)`: resolve from a batch provider metric list,
falling back to the single metric. -/
def registryGetMetric (r : MetricProvidersRegistry) (providerId : String) :
    Except RegError Metric :=
  match getProvider r providerId with
  | .error e => .error e
  | .ok provider =>
    match provider.getMetrics with
    | some metrics =>
      match metrics.find? (fun m => m.id == providerId) with
      | some m => .ok m
      | none => .ok provider.getMetric
    | none => .ok provider.getMetric

/-- `listProviders()`: the values of the `metricProviders` map, one per
registered metric id. -/
def listProviders (r : MetricProvidersRegistry) : List MetricProvider :=
  r.metricProviders.map (·.2)

/-- Resolution of one requested id inside `listMetrics(providerIds)`:
unregistered ids and batch providers without a matching definition yield
`undefined` and are filtered out by the caller. -/
def resolveMetricForId (r : MetricProvidersRegistry) (providerId : String) :
    Option Metric :=
  match assocGet r.metricProviders providerId with
  | none => none
  | some provider =>
    match provider.getMetrics with
    | some metrics => metrics.find? (fun m => m.id == providerId)
    | none => some provider.getMetric

/-- The dedup loop shared by `listMetrics()` and `listMetricsByDatasource`:
walk the provider values carrying the `seen` set, emitting each distinct
provider's metric block once. -/
def collectAll (seen : List MetricProvider) :
    List MetricProvider → List Metric
  | [] => []
  | p :: rest =>
    if p ∈ seen then collectAll seen rest
    else (p.getMetrics.getD [p.getMetric]) ++ collectAll (seen ++ [p]) rest

/-- `listMetrics()` with no (or an empty) argument: all metrics from all
providers, deduplicating batch providers. -/
def listMetricsAll (r : MetricProvidersRegistry) : List Metric :=
  collectAll [] (r.metricProviders.map (·.2))

/-- `listMetrics(providerIds?)`. -/
def listMetrics (r : MetricProvidersRegistry) (providerIds : Option (List String)) :
    List Metric :=
  match providerIds with
  | some ids =>
    if ids ≠ [] then ids.filterMap (resolveMetricForId r)
    else listMetricsAll r
  | none => listMetricsAll r

/-- The dedup loop of `listMetricsByDatasource`, over the id set of one
datasource. -/
def collectByIds (r : MetricProvidersRegistry) (seen : List MetricProvider) :
    List String → List Metric
  | [] => []
  | id :: rest =>
    match assocGet r.metricProviders id with
    | none => collectByIds r seen rest
    | some p =>
      if p ∈ seen then collectByIds r seen rest
      else (p.getMetrics.getD [p.getMetric]) ++ collectByIds r (seen ++ [p]) rest

/-- `listMetricsByDatasource(datasourceId)`. -/
def listMetricsByDatasource (r : MetricProvidersRegistry) (datasourceId : String) :
    List Metric :=
  match assocGet r.datasourceIndex datasourceId with
  | none => []
  | some ids => collectByIds r [] ids

/-! ## Catalog entities and persisted rows -/

/-- A catalog entity, restricted to the fields the service projects
(`kind`, `metadata.name`, `spec.owner`); each is optional at the JS level. -/
structure Entity where
  name : Option String
  kind : Option String
  owner : Option String
deriving DecidableEq, Repr

/-- A persisted `metric_values` row (`DbMetricValue`): timestamps are
epoch-millisecond integers, `value` a number-or-null. -/
structure DbMetricValue where
  catalog_entity_ref : String
  metric_id : String
  value : Option Int
  timestamp : Int
  error_message : Option String
  status : Option String
  entity_kind : Option String
  entity_owner : Option String
deriving DecidableEq, Repr

/-- JS truthiness of an optional string: `null`/`undefined` and the empty
string are falsy. -/
def strTruthy : Option String → Bool
  | none => false
  | some s => s ≠ ""

/-! ## Metric store (modelled: `DatabaseMetricValues.ts` is absent from the
source tree; only its tests and callers are present). -/

/-- Pick the row with the maximum timestamp from a candidate list (the last
one among ties), or `none` when the list is empty. -/
def maxByTimestamp : List DbMetricValue → Option DbMetricValue
  | [] => none
  | row :: rest =>
    match maxByTimestamp rest with
    | none => some row
    | some best => if best.timestamp ≥ row.timestamp then some best else some row

/-- First-occurrence deduplication of a string list, by a seen-set walk. -/
def dedupFirstAux (seen : List String) : List String → List String
  | [] => []
  | x :: rest =>
    if x ∈ seen then dedupFirstAux seen rest
    else x :: dedupFirstAux (seen ++ [x]) rest

/-- First-occurrence deduplication of a string list. -/
def dedupFirst (l : List String) : List String :=
  dedupFirstAux [] l

/-- Modelled from the spec: `latestFor(entityRef, metricIds[])` of the absent
`DatabaseMetricValues.ts` — for each requested metric id at most one row is
returned, the one with the maximum timestamp for that entity and metric;
ids with no rows are absent from the result. -/
def readLatestEntityMetricValues (store : List DbMetricValue)
    (entityRef : String) (metricIds : List String) : List DbMetricValue :=
  metricIds.filterMap (fun mid =>
    maxByTimestamp (store.filter (fun row =>
      row.catalog_entity_ref == entityRef && row.metric_id == mid)))

/-- An offset/limit pagination request, as built by the service. -/
structure DbPagination where
  limit : Nat
  offset : Nat
deriving DecidableEq, Repr

/-- The latest row per entity for one metric, in order of each entity's first
appearance in the store. -/
def latestRowsForMetric (store : List DbMetricValue) (metricId : String) :
    List DbMetricValue :=
  let mrows := store.filter (fun row => row.metric_id == metricId)
  (dedupFirst (mrows.map (·.catalog_entity_ref))).filterMap (fun ref =>
    maxByTimestamp (mrows.filter (fun row => row.catalog_entity_ref == ref)))

/-- The AND-combined row filters of the drill-down store query: entity-ref
scoping (empty list means no restriction) and the optional status, kind and
owner equality filters against the row columns. -/
def rowMatchesFilters (entityRefs : List String)
    (status kind owner : Option String) (row : DbMetricValue) : Bool :=
  (entityRefs.isEmpty || entityRefs.contains row.catalog_entity_ref) &&
  (match status with | none => true | some s => row.status == some s) &&
  (match kind with | none => true | some k => row.entity_kind == some k) &&
  (match owner with | none => true | some o => row.entity_owner == some o)

/-- Modelled from the spec: `readEntityMetricsByStatus` of the absent
`DatabaseMetricValues.ts` — only the latest row per entity for the metric
participates; filters are AND-combined; `total` is the filtered
pre-pagination count; pagination is offset/limit; an empty `entityRefs` list
means no ref restriction.  The query has no sort parameter, so rows come
back in storage order. -/
def readEntityMetricsByStatus (store : List DbMetricValue)
    (entityRefs : List String) (metricId : String)
    (status kind owner : Option String) (pagination : Option DbPagination) :
    List DbMetricValue × Nat :=
  let filtered := (latestRowsForMetric store metricId).filter
    (rowMatchesFilters entityRefs status kind owner)
  match pagination with
  | none => (filtered, filtered.length)
  | some pg => ((filtered.drop pg.offset).take pg.limit, filtered.length)

/-! ## Permission filter (modelled: `permissionUtils.ts` is absent from the
source tree; only its tests and callers are present). -/

/-- Modelled from the spec: a permission criteria tree over `anyOf`, `allOf`
and `not` of atomic conditions; the only rule in play carries a metric-id
list. -/
inductive Criteria where
  | hasMetricId (metricIds : List String)
  | anyOf (cs : List Criteria)
  | allOf (cs : List Criteria)
  | neg (c : Criteria)

/-- Modelled from the spec: `matches(metric, criteria?)` — absent criteria
always match; otherwise the predicate tree is evaluated over the metric. -/
def matchesCriteria (m : Metric) : Criteria → Bool
  | .hasMetricId ids => ids.contains m.id
  | .anyOf cs => cs.attach.any (fun c => matchesCriteria m c.1)
  | .allOf cs => cs.attach.all (fun c => matchesCriteria m c.1)
  | .neg c => ¬ matchesCriteria m c
decreasing_by
  all_goals first
  | (have h := List.sizeOf_lt_of_mem c.2
     simp only [Criteria.anyOf.sizeOf_spec, Criteria.allOf.sizeOf_spec] at *
     omega)
  | (simp only [Criteria.neg.sizeOf_spec]
     omega)

/-- Modelled from the spec: `filterAuthorizedMetrics(metrics[], criteria?)`. -/
def filterAuthorizedMetrics (metrics : List Metric) (filter : Option Criteria) :
    List Metric :=
  match filter with
  | none => metrics
  | some c => metrics.filter (fun m => matchesCriteria m c)

/-! ## CatalogMetricService.getLatestEntityMetrics -/

/-- The `thresholdResult` attached to each metric result. -/
structure ThresholdResult where
  definition : Option ThresholdConfig
  status : String
  evaluation : Option String
  error : Option String
deriving DecidableEq, Repr

/-- The `result` payload of a metric result. -/
structure MetricResultPayload where
  value : Option Int
  timestamp : Int
  thresholdResult : ThresholdResult
deriving DecidableEq, Repr

/-- The metadata block of a metric result. -/
structure MetricResultMetadata where
  title : String
  description : String
  type : String
  history : Bool
deriving DecidableEq, Repr

/-- One element of the `getLatestEntityMetrics` response (`MetricResult`). -/
structure MetricResult where
  id : String
  status : String
  metadata : MetricResultMetadata
  error : Option String
  result : MetricResultPayload
deriving DecidableEq, Repr

/-- The per-row mapping of `getLatestEntityMetrics`: resolve the provider,
merge thresholds (a thrown merge error is caught into `thresholdError`), then
classify.  `mergeF` stands for `mergeEntityAndProviderThresholds`, with a
thrown error modelled as `.error` carrying its stringified message. -/
def processMetricValueRow (r : MetricProvidersRegistry) (entity : Entity)
    (mergeF : Entity → MetricProvider → Except String ThresholdConfig)
    (row : DbMetricValue) : Except RegError MetricResult :=
  match getProvider r row.metric_id with
  | .error e => .error e
  | .ok provider =>
    let metric := provider.getMetric
    let merged : Option ThresholdConfig × Option String :=
      match mergeF entity provider with
      | .error err => (none, some err)
      | .ok thresholds =>
        (some thresholds,
          if row.value = none then
            some "Unable to evaluate thresholds, metric value is missing"
          else if strTruthy row.error_message then row.error_message
          else none)
    let thresholds := merged.1
    let thresholdError := merged.2
    let isMetricCalcError := row.error_message ≠ none ∧ row.value = none
    .ok
      { id := metric.id
        status := if isMetricCalcError then "error" else "success"
        metadata :=
          { title := metric.title
            description := metric.description
            type := metric.type
            history := metric.history }
        error :=
          if isMetricCalcError then
            some (row.error_message.getD "Error: Metric value is undefined")
          else none
        result :=
          { value := row.value
            timestamp := row.timestamp
            thresholdResult :=
              { definition := thresholds
                status := if thresholdError.isSome then "error" else "success"
                evaluation := row.status
                error := thresholdError } } }

/-- Sequencing of independent per-row computations; the JS `rawResults.map`
body can only throw through `getProvider`, which aborts the whole call. -/
def mapExcept {α β ε : Type} (f : α → Except ε β) : List α → Except ε (List β)
  | [] => .ok []
  | x :: rest =>
    match f x with
    | .error e => .error e
    | .ok y =>
      match mapExcept f rest with
      | .error e => .error e
      | .ok ys => .ok (y :: ys)

/-- `getLatestEntityMetrics(entityRef, providerIds?, filter?)`.
`catalogEntity` is the result of `catalog.getEntityByRef(entityRef)`. -/
def getLatestEntityMetrics (store : List DbMetricValue)
    (r : MetricProvidersRegistry) (catalogEntity : Option Entity)
    (mergeF : Entity → MetricProvider → Except String ThresholdConfig)
    (entityRef : String) (providerIds : Option (List String))
    (filter : Option Criteria) : Except RegError (List MetricResult) :=
  match catalogEntity with
  | none => .error (.notFound ("Entity not found: " ++ entityRef))
  | some entity =>
    let metricsToFetch := listMetrics r providerIds
    let authorizedMetricsToFetch := filterAuthorizedMetrics metricsToFetch filter
    let rawResults := readLatestEntityMetricValues store entityRef
      (authorizedMetricsToFetch.map (·.id))
    mapExcept (processMetricValueRow r entity mergeF) rawResults

/-! ## CatalogMetricService.getEntityMetricDetails -/

/-- One row of the drill-down response (`EntityMetricDetail`); the ISO-string
conversion of the timestamp is kept as the underlying epoch integer, and the
non-null type assertion on `status` is a type-level cast only, so `status`
is carried through unchanged. -/
structure EntityMetricDetail where
  entityRef : String
  entityName : String
  entityKind : String
  owner : String
  metricValue : Option Int
  timestamp : Int
  status : Option String
deriving DecidableEq, Repr

/-- The pagination block of the drill-down response. -/
structure PaginationInfo where
  page : Nat
  pageSize : Nat
  total : Nat
  totalPages : Nat
deriving DecidableEq, Repr

/-- The drill-down response (`EntityMetricDetailResponse`). -/
structure EntityMetricDetailResponse where
  metricId : String
  metricTitle : String
  metricDescription : String
  metricType : String
  entities : List EntityMetricDetail
  pagination : PaginationInfo
deriving DecidableEq, Repr

/-- The sort keys of the drill-down query. -/
inductive SortBy where
  | entityName
  | owner
  | entityKind
  | timestamp
  | metricValue
deriving DecidableEq, Repr

/-- The sort directions of the drill-down query. -/
inductive SortOrder where
  | asc
  | desc
deriving DecidableEq, Repr

/-- The drill-down query options of `getEntityMetricDetails`. -/
structure DetailsOptions where
  status : Option String
  owner : Option String
  kind : Option String
  entityName : Option String
  sortBy : Option SortBy
  sortOrder : Option SortOrder
  page : Nat
  limit : Nat
deriving DecidableEq, Repr

/-- Building the ref→entity map from the batch response: `response.items` is
positional with the requested refs; missing (`undefined`) items are skipped. -/
def buildEntityMap : List String → List (Option Entity) →
    List (String × Entity)
  | [], _ => []
  | _ :: _, [] => []
  | ref :: refs, item :: items =>
    match item with
    | some entity => assocSet (buildEntityMap refs items) ref entity
    | none => buildEntityMap refs items

/-- The ref→entity map block of `getEntityMetricDetails`: skip the batch
call on an empty ref list; a thrown batch call (`none`) is caught and leaves
the map empty. -/
def detailsEntityMap (catalogBatch : List String → Option (List (Option Entity)))
    (refs : List String) : List (String × Entity) :=
  if refs.length > 0 then
    match catalogBatch refs with
    | some items => buildEntityMap refs items
    | none => []
  else []

/-- Enrichment of one stored row with catalog data, with the `??`-chained
fallbacks of the source (`Unknown` for a missing name; denormalized columns,
then `Unknown`, for kind and owner). -/
def enrichRow (entityMap : List (String × Entity)) (row : DbMetricValue) :
    EntityMetricDetail :=
  let entity := assocGet entityMap row.catalog_entity_ref
  { entityRef := row.catalog_entity_ref
    entityName := (entity.bind (·.name)).getD "Unknown"
    entityKind := ((entity.bind (·.kind)).or row.entity_kind).getD "Unknown"
    owner := ((entity.bind (·.owner)).or row.entity_owner).getD "Unknown"
    metricValue := row.value
    timestamp := row.timestamp
    status := row.status }

/-- The application-level `entityName` filter: case-insensitive substring
match of the search term against the enriched display name. -/
def appNameFilter (entityName : Option String)
    (details : List EntityMetricDetail) : List EntityMetricDetail :=
  if strTruthy entityName then
    let searchTerm := strLower (entityName.getD "")
    details.filter (fun e => strIncludes (strLower e.entityName) searchTerm)
  else details

/-- The base comparator of the drill-down sort, before the direction is
applied: lowercased string comparison for the name-like keys, numeric
comparison otherwise, with a null metric value standing for `-Infinity`. -/
def cmpDetail (sb : SortBy) (a b : EntityMetricDetail) : Ordering :=
  match sb with
  | .entityName => compare (strLower a.entityName) (strLower b.entityName)
  | .owner => compare (strLower a.owner) (strLower b.owner)
  | .entityKind => compare (strLower a.entityKind) (strLower b.entityKind)
  | .timestamp => compare a.timestamp b.timestamp
  | .metricValue =>
    match a.metricValue, b.metricValue with
    | none, none => .eq
    | none, some _ => .lt
    | some _, none => .gt
    | some x, some y => compare x y

/-- The full comparator: `sortOrder === 'asc'` keeps the base ordering, any
other value (including absence) reverses it. -/
def cmpWithDir (sb : SortBy) (sortOrder : Option SortOrder)
    (a b : EntityMetricDetail) : Ordering :=
  if sortOrder = some .asc then cmpDetail sb a b else (cmpDetail sb a b).swap

/-- Stable insertion into a sorted list: the new element goes before the
first element not strictly below it. -/
def insertC {α : Type} (c : α → α → Ordering) (x : α) : List α → List α
  | [] => [x]
  | y :: ys => if c y x = .lt then y :: insertC c x ys else x :: y :: ys

/-- Stable sort by a comparator, modelling the (stable) JS `Array.sort`. -/
def sortC {α : Type} (c : α → α → Ordering) : List α → List α
  | [] => []
  | x :: xs => insertC c x (sortC c xs)

/-- The sort step of `getEntityMetricDetails`: the requested key and
direction when `sortBy` is given, otherwise timestamp descending. -/
def sortDetails (sortBy : Option SortBy) (sortOrder : Option SortOrder)
    (details : List EntityMetricDetail) : List EntityMetricDetail :=
  match sortBy with
  | some sb => sortC (cmpWithDir sb sortOrder) details
  | none => sortC (fun a b => compare b.timestamp a.timestamp) details

/-- Nat ceiling division, modelling `Math.ceil(total / limit)`. -/
def ceilDiv (total limit : Nat) : Nat := (total + limit - 1) / limit

/-- `getEntityMetricDetails(entityRefs, metricId, options)`.  `catalogBatch`
stands for `catalog.getEntitiesByRefs`: `none` models a thrown catalog error
(caught by the service, which continues with an empty entity map), `some
items` the positional response items. -/
def getEntityMetricDetails (store : List DbMetricValue)
    (r : MetricProvidersRegistry)
    (catalogBatch : List String → Option (List (Option Entity)))
    (entityRefs : List String) (metricId : String)
    (options : DetailsOptions) : Except RegError EntityMetricDetailResponse :=
  let needsAppFiltering := strTruthy options.entityName
  let dbPagination : Option DbPagination :=
    if needsAppFiltering then none
    else some ⟨options.limit, (options.page - 1) * options.limit⟩
  let dbResult := readEntityMetricsByStatus store entityRefs metricId
    options.status options.kind options.owner dbPagination
  let rows := dbResult.1
  let dbTotal := dbResult.2
  match registryGetMetric r metricId with
  | .error e => .error e
  | .ok metric =>
    let entityMap := detailsEntityMap catalogBatch (rows.map (·.catalog_entity_ref))
    let enrichedEntities := rows.map (enrichRow entityMap)
    let filteredEntities := appNameFilter options.entityName enrichedEntities
    let sortedEntities := sortDetails options.sortBy options.sortOrder
      filteredEntities
    let final : List EntityMetricDetail × Nat :=
      if needsAppFiltering then
        let startIndex := (options.page - 1) * options.limit
        ((sortedEntities.drop startIndex).take options.limit,
          sortedEntities.length)
      else (sortedEntities, dbTotal)
    .ok
      { metricId := metric.id
        metricTitle := metric.title
        metricDescription := metric.description
        metricType := metric.type
        entities := final.1
        pagination :=
          { page := options.page
            pageSize := options.limit
            total := final.2
            totalPages := ceilDiv final.2 options.limit } }

/-! ## Concrete fixtures used by witnesses and counterexamples -/

/-- A number metric of the `github` datasource. -/
def mG : Metric := ⟨"github.m", "M", "desc", "number", false⟩

/-- A single-metric provider for `mG`. -/
def pG : MetricProvider := ⟨"github", "github.m", "number", mG, none, none⟩

/-- The registry holding exactly `pG`. -/
def regG : MetricProvidersRegistry := (register emptyRegistry pG).1

/-- A stored row for `service-a` with value 1. -/
def rowA : DbMetricValue :=
  ⟨"component:default/service-a", "github.m", some 1, 100, none, some "success",
    some "Component", some "team:default/platform"⟩

/-- A stored row for `service-b` with value 2. -/
def rowB : DbMetricValue :=
  ⟨"component:default/service-b", "github.m", some 2, 100, none, some "success",
    some "Component", some "team:default/backend"⟩

/-- A stored row for `service-a` with a null value. -/
def rowN : DbMetricValue :=
  ⟨"component:default/service-a", "github.m", none, 100, none, some "error",
    some "Component", some "team:default/platform"⟩

/-- The catalog entity backing `service-a`. -/
def entA : Entity := ⟨some "service-a", some "Component", some "team:default/platform"⟩

/-- Drill-down options: first page of ten, no filters, no explicit sort. -/
def optsBase : DetailsOptions := ⟨none, none, none, none, none, none, 1, 10⟩

/-- Drill-down options: sort by metric value descending, one row per page. -/
def optsValDesc (page : Nat) : DetailsOptions :=
  ⟨none, none, none, none, some .metricValue, some .desc, page, 1⟩

/-- Drill-down options: sort by metric value ascending. -/
def optsAsc : DetailsOptions :=
  ⟨none, none, none, none, some .metricValue, some .asc, 1, 10⟩

/-- Drill-down options: entity-name search for `component:`. -/
def optsSearch : DetailsOptions :=
  ⟨none, none, none, some "component:", none, none, 1, 10⟩

/-- A catalog batch lookup that always throws. -/
def catalogThrows : List String → Option (List (Option Entity)) := fun _ => none

/-- A catalog batch lookup that answers every ref with no item. -/
def catalogEmptyItems : List String → Option (List (Option Entity)) :=
  fun refs => some (refs.map (fun _ => none))

/-- A provider whose metric-id list has no matching metric definition. -/
def pNoDef : MetricProvider := ⟨"ds", "ds.a", "number", mG, some ["ds.a"], some []⟩

/-- A number metric `ds.a`. -/
def mA : Metric := ⟨"ds.a", "A", "da", "number", false⟩

/-- A number metric `ds.b`. -/
def mB : Metric := ⟨"ds.b", "B", "db", "number", false⟩

/-- A batch provider emitting the two metric ids `ds.a` and `ds.b`. -/
def pB2 : MetricProvider := ⟨"ds", "ds.a", "number", mA, some ["ds.a", "ds.b"], some [mA, mB]⟩

/-- A provider whose declared type disagrees with its metric definition. -/
def pMis : MetricProvider := ⟨"ds", "ds.a", "boolean", mA, none, none⟩

/-- A number metric whose id lacks the `ds.` prefix. -/
def mOther : Metric := ⟨"other.a", "A", "da", "number", false⟩

/-- A provider whose metric id does not start with its datasource id. -/
def pPre : MetricProvider := ⟨"ds", "other.a", "number", mOther, none, none⟩

/-- A batch provider whose second metric id has no metric definition. -/
def pPart : MetricProvider := ⟨"ds", "ds.a", "number", mA, some ["ds.a", "ds.bad"], some [mA]⟩

/-- The registry holding `pG` and then the first (valid) id of `pPart`. -/
def regMid : MetricProvidersRegistry :=
  ⟨[("github.m", pG), ("ds.a", pPart)], [("github", ["github.m"]), ("ds", ["ds.a"])]⟩

/-- Consistency of a registry state with how `register` builds it: a
non-batch provider is bound under the id of its single metric.  (Registries
built by `register` satisfy this because validation matches each id against
a metric definition before binding it.) -/
def registryConsistent (r : MetricProvidersRegistry) : Bool :=
  r.metricProviders.all (fun e =>
    match e.2.getMetrics with
    | some _ => true
    | none => e.2.getMetric.id == e.1)

/-- A threshold merge function that always throws. -/
def mfFail : Entity → MetricProvider → Except String ThresholdConfig :=
  fun _ _ => .error "boom"

/-- A threshold merge function that always succeeds with an empty rule set. -/
def mfOk : Entity → MetricProvider → Except String ThresholdConfig :=
  fun _ _ => .ok ⟨[]⟩

/-- The metric result produced for `rowA` when the threshold merge throws. -/
def mrFail : MetricResult :=
  { id := "github.m"
    status := "success"
    metadata := ⟨"M", "desc", "number", false⟩
    error := none
    result :=
      { value := some 1
        timestamp := 100
        thresholdResult :=
          { definition := none
            status := "error"
            evaluation := some "success"
            error := some "boom" } } }

/-! ## Supporting lemmas -/

/-- Stable insertion adds exactly the inserted element. -/
theorem mem_insertC {α : Type} (c : α → α → Ordering) (x a : α) (l : List α) :
    a ∈ insertC c x l ↔ a = x ∨ a ∈ l := by
  induction l with
  | nil => simp [insertC]
  | cons y ys ih =>
    simp only [insertC]
    split
    · simp only [List.mem_cons, ih]
      tauto
    · simp only [List.mem_cons]

/-- Stable insertion grows the length by one. -/
theorem length_insertC {α : Type} (c : α → α → Ordering) (x : α) (l : List α) :
    (insertC c x l).length = l.length + 1 := by
  induction l with
  | nil => rfl
  | cons y ys ih =>
    simp only [insertC]
    by_cases h : c y x = .lt <;> simp [h, ih]

/-- The comparator sort preserves membership. -/
theorem mem_sortC {α : Type} (c : α → α → Ordering) (a : α) (l : List α) :
    a ∈ sortC c l ↔ a ∈ l := by
  induction l with
  | nil => simp [sortC]
  | cons y ys ih => simp [sortC, mem_insertC, ih]

/-- The comparator sort preserves length. -/
theorem length_sortC {α : Type} (c : α → α → Ordering) (l : List α) :
    (sortC c l).length = l.length := by
  induction l with
  | nil => rfl
  | cons y ys ih => simp [sortC, length_insertC, ih]

/-- The drill-down sort step preserves membership. -/
theorem mem_sortDetails (sb : Option SortBy) (so : Option SortOrder)
    (a : EntityMetricDetail) (l : List EntityMetricDetail) :
    a ∈ sortDetails sb so l ↔ a ∈ l := by
  cases sb <;> simp [sortDetails, mem_sortC]

/-- The drill-down sort step preserves length. -/
theorem length_sortDetails (sb : Option SortBy) (so : Option SortOrder)
    (l : List EntityMetricDetail) :
    (sortDetails sb so l).length = l.length := by
  cases sb <;> simp [sortDetails, length_sortC]

/-- Offset/limit pages of a list jointly cover exactly the list: an element
is on some page (1-indexed, `limit` per page) iff it is in the list. -/
theorem mem_pages_iff {α : Type} (l : List α) (limit : Nat) (hl : 1 ≤ limit)
    (x : α) :
    (∃ p, 1 ≤ p ∧ x ∈ (l.drop ((p - 1) * limit)).take limit) ↔ x ∈ l := by
  constructor
  · rintro ⟨p, _, hx⟩
    exact List.mem_of_mem_drop (List.mem_of_mem_take hx)
  · intro hx
    obtain ⟨i, hi, rfl⟩ := List.mem_iff_getElem.mp hx
    have hml : i % limit < limit := Nat.mod_lt _ (by omega)
    have hdm := Nat.div_add_mod i limit
    refine ⟨i / limit + 1, Nat.succ_le_succ (Nat.zero_le _), ?_⟩
    have hk : (i / limit + 1 - 1) * limit = limit * (i / limit) := by
      simp [Nat.mul_comm]
    rw [hk]
    generalize hgen : limit * (i / limit) = k at hdm ⊢
    rw [List.mem_iff_getElem]
    refine ⟨i % limit, ?_, ?_⟩
    · simp only [List.length_take, List.length_drop]
      omega
    · rw [List.getElem_take, List.getElem_drop]
      simp only [hdm]

/-- A fresh key set by `assocSet` is found again. -/
theorem assocGet_assocSet_self {α : Type} (m : List (String × α))
    (k : String) (v : α) : assocGet (assocSet m k v) k = some v := by
  induction m with
  | nil => simp [assocSet, assocGet]
  | cons e rest ih =>
    obtain ⟨k', v'⟩ := e
    simp only [assocSet]
    by_cases h : k' = k
    · simp [h, assocGet]
    · simp [h, assocGet, ih]

/-- Setting an absent key appends it at the end of the map. -/
theorem assocSet_of_get_none {α : Type} (m : List (String × α))
    (k : String) (v : α) (h : assocGet m k = none) :
    assocSet m k v = m ++ [(k, v)] := by
  induction m with
  | nil => rfl
  | cons e rest ih =>
    obtain ⟨k', v'⟩ := e
    simp only [assocGet] at h
    by_cases hk : k' = k
    · simp [hk] at h
    · rw [if_neg hk] at h
      simp only [assocSet, if_neg hk, List.cons_append]
      rw [ih h]

/-- A binding survives appending further entries. -/
theorem assocGet_append_left {α : Type} (m m' : List (String × α))
    (k : String) (v : α) (h : assocGet m k = some v) :
    assocGet (m ++ m') k = some v := by
  induction m with
  | nil => simp [assocGet] at h
  | cons e rest ih =>
    obtain ⟨k', v'⟩ := e
    simp only [assocGet] at h ⊢
    by_cases hk : k' = k
    · simpa [hk] using h
    · rw [if_neg hk] at h ⊢
      exact ih h

/-- Lookup of a key absent from the front part falls through to the back. -/
theorem assocGet_append_right {α : Type} (m m' : List (String × α))
    (k : String) (h : assocGet m k = none) :
    assocGet (m ++ m') k = assocGet m' k := by
  induction m with
  | nil => rfl
  | cons e rest ih =>
    obtain ⟨k', v'⟩ := e
    simp only [assocGet] at h ⊢
    by_cases hk : k' = k
    · simp [hk] at h
    · rw [if_neg hk] at h ⊢
      exact ih h

/-- A successful `register` loop body appends the new binding, records the
metric id in the datasource index, and can only have fired on an absent
key. -/
theorem registerStep_ok_shape (r : MetricProvidersRegistry)
    (p : MetricProvider) (ms : List Metric) (id : String)
    (r₁ : MetricProvidersRegistry) (h : registerStep r p ms id = .ok r₁) :
    r₁.metricProviders = r.metricProviders ++ [(id, p)] ∧
    assocGet r.metricProviders id = none ∧
    r₁.datasourceIndex = assocSet r.datasourceIndex p.providerDatasourceId
      (setAdd ((assocGet r.datasourceIndex p.providerDatasourceId).getD [])
        id) := by
  simp only [registerStep] at h
  split at h
  · simp at h
  · split at h
    · simp at h
    · split at h
      · simp at h
      · split at h
        · simp at h
        · rename_i hconf
          injection h with h
          subst h
          have hnone : assocGet r.metricProviders id = none := by
            cases hg : assocGet r.metricProviders id with
            | none => rfl
            | some q => rw [hg] at hconf; simp at hconf
          exact ⟨by simp [assocSet_of_get_none _ _ _ hnone], hnone, rfl⟩

/-- A successful `register` loop body preserves existing bindings. -/
theorem registerStep_preserves (r : MetricProvidersRegistry)
    (p : MetricProvider) (ms : List Metric) (id : String)
    (r₁ : MetricProvidersRegistry) (k : String) (q : MetricProvider)
    (h : registerStep r p ms id = .ok r₁)
    (hk : assocGet r.metricProviders k = some q) :
    assocGet r₁.metricProviders k = some q := by
  obtain ⟨hmp, _, _⟩ := registerStep_ok_shape r p ms id r₁ h
  rw [hmp]
  exact assocGet_append_left _ _ _ _ hk

/-- The `register` loop preserves existing bindings, whether or not it
throws along the way. -/
theorem registerList_preserves (p : MetricProvider) (ms : List Metric) :
    ∀ (ids : List String) (r : MetricProvidersRegistry) (k : String)
      (q : MetricProvider), assocGet r.metricProviders k = some q →
      assocGet ((registerList p ms r ids).1).metricProviders k = some q := by
  intro ids
  induction ids with
  | nil => intro r k q h; exact h
  | cons id rest ih =>
    intro r k q h
    rcases hs : registerStep r p ms id with e | r'
    · simp only [registerList, hs]
      exact h
    · simp only [registerList, hs]
      exact ih r' k q (registerStep_preserves r p ms id r' k q hs h)

/-- After a fully successful `register` loop, every processed id is bound
to the registered provider. -/
theorem registerList_ok_regs (p : MetricProvider) (ms : List Metric) :
    ∀ (ids : List String) (r r' : MetricProvidersRegistry),
      registerList p ms r ids = (r', none) →
      ∀ j ∈ ids, assocGet r'.metricProviders j = some p := by
  intro ids
  induction ids with
  | nil =>
    intro r r' _ j hj
    exact absurd hj (List.not_mem_nil j)
  | cons id rest ih =>
    intro r r' h j hj
    rcases hs : registerStep r p ms id with e | r₁
    · simp only [registerList, hs] at h
      exact absurd h (by simp)
    · simp only [registerList, hs] at h
      rcases List.mem_cons.mp hj with rfl | hjr
      · obtain ⟨hmp, hnone, _⟩ := registerStep_ok_shape r p ms j r₁ hs
        have h1 : assocGet r₁.metricProviders j = some p := by
          rw [hmp, assocGet_append_right _ _ _ hnone]
          simp [assocGet]
        have h2 := registerList_preserves p ms rest r₁ j p h1
        rw [h] at h2
        exact h2
      · exact ih r₁ r' h j hjr

/-- The `register` loop over an initial fully-successful segment continues
from the state that segment produced. -/
theorem registerList_append (p : MetricProvider) (ms : List Metric) :
    ∀ (ids1 : List String) (r r' : MetricProvidersRegistry),
      registerList p ms r ids1 = (r', none) →
      ∀ ids2, registerList p ms r (ids1 ++ ids2) = registerList p ms r' ids2 := by
  intro ids1
  induction ids1 with
  | nil =>
    intro r r' h ids2
    simp only [registerList] at h
    injection h with h1 _
    subst h1
    rfl
  | cons id rest ih =>
    intro r r' h ids2
    rcases hs : registerStep r p ms id with e | r₁
    · simp only [registerList, hs] at h
      exact absurd h (by simp)
    · simp only [registerList, hs] at h
      simp only [List.cons_append, registerList, hs]
      exact ih r₁ r' h ids2

/-- Keys bound in a constant-value association list resolve to that value. -/
theorem assocGet_mapSelf (p : MetricProvider) :
    ∀ (ids : List String) (i : String), i ∈ ids →
      assocGet (ids.map (fun j => (j, p))) i = some p := by
  intro ids
  induction ids with
  | nil => intro i hi; exact absurd hi (List.not_mem_nil i)
  | cons j rest ih =>
    intro i hi
    simp only [List.map_cons, assocGet]
    by_cases hj : j = i
    · rw [if_pos hj]
    · rw [if_neg hj]
      rcases List.mem_cons.mp hi with rfl | hir
      · exact absurd rfl hj
      · exact ih i hir

/-- The dedup loop emits nothing over providers it has already seen. -/
theorem collectAll_all_seen (seen : List MetricProvider) :
    ∀ l, (∀ x ∈ l, x ∈ seen) → collectAll seen l = [] := by
  intro l
  induction l with
  | nil => intro _; rfl
  | cons x rest ih =>
    intro h
    simp only [collectAll]
    rw [if_pos (h x (List.mem_cons_self x rest))]
    exact ih (fun y hy => h y (List.mem_cons_of_mem x hy))

/-- The per-datasource dedup loop emits nothing over ids that resolve to an
already-seen provider. -/
theorem collectByIds_seen (r : MetricProvidersRegistry) (p : MetricProvider) :
    ∀ (ids : List String) (seen : List MetricProvider),
      (∀ i ∈ ids, assocGet r.metricProviders i = some p) → p ∈ seen →
      collectByIds r seen ids = [] := by
  intro ids
  induction ids with
  | nil => intro seen _ _; rfl
  | cons i rest ih =>
    intro seen h hp
    simp only [collectByIds, h i (List.mem_cons_self i rest)]
    rw [if_pos hp]
    exact ih seen (fun j hj => h j (List.mem_cons_of_mem i hj)) hp

/-- Unfolding of the dedup loop at an unseen provider. -/
theorem collectAll_cons_new (seen : List MetricProvider)
    (x : MetricProvider) (l : List MetricProvider) (h : x ∉ seen) :
    collectAll seen (x :: l) =
      (x.getMetrics.getD [x.getMetric]) ++ collectAll (seen ++ [x]) l := by
  simp only [collectAll]
  rw [if_neg h]

/-- Unfolding of the per-datasource dedup loop at an id resolving to an
unseen provider. -/
theorem collectByIds_cons_resolve (r : MetricProvidersRegistry)
    (seen : List MetricProvider) (id : String) (rest : List String)
    (p : MetricProvider) (h : assocGet r.metricProviders id = some p)
    (hnot : p ∉ seen) :
    collectByIds r seen (id :: rest) =
      (p.getMetrics.getD [p.getMetric]) ++ collectByIds r (seen ++ [p]) rest := by
  simp only [collectByIds, h]
  rw [if_neg hnot]

/-- A fully successful `register` loop of one provider over a single
datasource appends its bindings and extends the single datasource entry. -/
theorem registerList_single_ds (p : MetricProvider) (ms : List Metric) :
    ∀ (ids prev : List String) (mp : List (String × MetricProvider))
      (r' : MetricProvidersRegistry),
      (∀ i ∈ prev, (assocGet mp i).isSome = true) →
      registerList p ms ⟨mp, [(p.providerDatasourceId, prev)]⟩ ids =
        (r', none) →
      r'.metricProviders = mp ++ ids.map (fun i => (i, p)) ∧
      r'.datasourceIndex = [(p.providerDatasourceId, prev ++ ids)] := by
  intro ids
  induction ids with
  | nil =>
    intro prev mp r' _ h
    simp only [registerList] at h
    injection h with h1 _
    subst h1
    simp
  | cons id rest ih =>
    intro prev mp r' hprev h
    rcases hs : registerStep ⟨mp, [(p.providerDatasourceId, prev)]⟩ p ms id
      with e | r₁
    · simp only [registerList, hs] at h
      exact absurd h (by simp)
    · simp only [registerList, hs] at h
      obtain ⟨hmp, hnone, hdi⟩ := registerStep_ok_shape _ p ms id r₁ hs
      have hid_not : id ∉ prev := by
        intro hmem
        have hp := hprev id hmem
        rw [hnone] at hp
        simp at hp
      have hdi' : r₁.datasourceIndex =
          [(p.providerDatasourceId, prev ++ [id])] := by
        rw [hdi]
        simp [assocGet, assocSet, setAdd, hid_not]
      have hr₁ : r₁ = ⟨mp ++ [(id, p)], [(p.providerDatasourceId,
          prev ++ [id])]⟩ := by
        cases r₁ with
        | mk a b =>
          simp only at hmp hdi'
          rw [hmp, hdi']
      rw [hr₁] at h
      have hprev' : ∀ i ∈ prev ++ [id],
          (assocGet (mp ++ [(id, p)]) i).isSome = true := by
        intro i hi
        rcases List.mem_append.mp hi with hi | hi
        · have hp := hprev i hi
          cases hg : assocGet mp i with
          | none => rw [hg] at hp; simp at hp
          | some v => rw [assocGet_append_left _ _ _ _ hg]; rfl
        · simp only [List.mem_singleton] at hi
          subst hi
          rw [assocGet_append_right _ _ _ hnone]
          simp [assocGet]
      obtain ⟨h1, h2⟩ := ih (prev ++ [id]) (mp ++ [(id, p)]) r' hprev' h
      constructor
      · rw [h1]
        simp
      · rw [h2]
        simp

/-- A fully successful `register` of one provider into the empty registry
binds exactly its metric ids (in order) and indexes them all under its
datasource. -/
theorem register_from_empty_build (p : MetricProvider)
    (r' : MetricProvidersRegistry) (hne : effIds p ≠ [])
    (hreg : register emptyRegistry p = (r', none)) :
    r'.metricProviders = (effIds p).map (fun i => (i, p)) ∧
    r'.datasourceIndex = [(p.providerDatasourceId, effIds p)] := by
  rcases hids : effIds p with _ | ⟨id, rest⟩
  · exact absurd hids hne
  · unfold register at hreg
    rw [hids] at hreg
    rcases hs : registerStep emptyRegistry p (effMetrics p) id with e | r₁
    · simp only [registerList, hs] at hreg
      exact absurd hreg (by simp)
    · simp only [registerList, hs] at hreg
      obtain ⟨hmp, _, hdi⟩ := registerStep_ok_shape _ p (effMetrics p) id r₁ hs
      have hf1 : r₁.metricProviders = [(id, p)] := by
        rw [hmp]
        rfl
      have hf2 : r₁.datasourceIndex = [(p.providerDatasourceId, [id])] := by
        rw [hdi]
        rfl
      have hr₁ : r₁ = ⟨[(id, p)], [(p.providerDatasourceId, [id])]⟩ := by
        calc r₁ = ⟨r₁.metricProviders, r₁.datasourceIndex⟩ := rfl
        _ = ⟨[(id, p)], [(p.providerDatasourceId, [id])]⟩ := by
            rw [hf1, hf2]
      rw [hr₁] at hreg
      obtain ⟨h1, h2⟩ := registerList_single_ds p (effMetrics p) rest [id]
        [(id, p)] r'
        (by
          intro i hi
          simp only [List.mem_singleton] at hi
          subst hi
          simp [assocGet])
        hreg
      constructor
      · rw [h1]
        simp
      · rw [h2]
        simp

/-- A binding found by lookup is an entry of the map. -/
theorem assocGet_mem {α : Type} :
    ∀ (m : List (String × α)) (k : String) (v : α),
      assocGet m k = some v → (k, v) ∈ m := by
  intro m
  induction m with
  | nil => intro k v h; simp [assocGet] at h
  | cons e rest ih =>
    intro k v h
    obtain ⟨k', v'⟩ := e
    simp only [assocGet] at h
    by_cases hk : k' = k
    · rw [if_pos hk] at h
      injection h with h
      subst h
      subst hk
      exact List.mem_cons_self _ _
    · rw [if_neg hk] at h
      exact List.mem_cons_of_mem _ (ih k v h)

/-- The maximum-timestamp pick comes from the candidate list. -/
theorem maxByTimestamp_mem :
    ∀ (l : List DbMetricValue) (x : DbMetricValue),
      maxByTimestamp l = some x → x ∈ l := by
  intro l
  induction l with
  | nil => intro x h; simp [maxByTimestamp] at h
  | cons row rest ih =>
    intro x h
    cases hm : maxByTimestamp rest with
    | none =>
      simp only [maxByTimestamp, hm] at h
      injection h with h
      subst h
      exact List.mem_cons_self _ _
    | some best =>
      simp only [maxByTimestamp, hm] at h
      split at h
      · injection h with h
        subst h
        exact List.mem_cons_of_mem _ (ih _ hm)
      · injection h with h
        subst h
        exact List.mem_cons_self _ _

/-- Every row the latest-values read returns is for a requested metric id. -/
theorem readLatest_metric_id_mem (store : List DbMetricValue) (ref : String) :
    ∀ (mids : List String) (row : DbMetricValue),
      row ∈ readLatestEntityMetricValues store ref mids →
      row.metric_id ∈ mids := by
  intro mids row h
  unfold readLatestEntityMetricValues at h
  obtain ⟨mid, hmid, hmax⟩ := List.mem_filterMap.mp h
  have hmem := maxByTimestamp_mem _ _ hmax
  have hpred := (List.mem_filter.mp hmem).2
  simp only [Bool.and_eq_true, beq_iff_eq] at hpred
  rw [hpred.2]
  exact hmid

/-- The permission filter only narrows the metric list. -/
theorem filterAuthorizedMetrics_subset (ms : List Metric)
    (f : Option Criteria) (m : Metric)
    (h : m ∈ filterAuthorizedMetrics ms f) : m ∈ ms := by
  cases f with
  | none => exact h
  | some c => exact (List.mem_filter.mp h).1

/-- Per-row processing cannot fail when the row's provider resolves. -/
theorem processMetricValueRow_ok_of_provider (r : MetricProvidersRegistry)
    (entity : Entity)
    (mergeF : Entity → MetricProvider → Except String ThresholdConfig)
    (rw : DbMetricValue) (q : MetricProvider)
    (hq : getProvider r rw.metric_id = .ok q) :
    ∃ y, processMetricValueRow r entity mergeF rw = .ok y := by
  simp only [processMetricValueRow, hq]
  exact ⟨_, rfl⟩

/-- A batch of per-row computations that each succeed yields one result per
row. -/
theorem mapExcept_ok {α β ε : Type} (f : α → Except ε β) :
    ∀ l : List α, (∀ x ∈ l, ∃ y, f x = .ok y) →
      ∃ out, mapExcept f l = .ok out ∧ out.length = l.length := by
  intro l
  induction l with
  | nil => intro _; exact ⟨[], rfl, rfl⟩
  | cons x rest ih =>
    intro h
    obtain ⟨y, hy⟩ := h x (List.mem_cons_self x rest)
    obtain ⟨out, hout, hlen⟩ := ih (fun z hz => h z (List.mem_cons_of_mem x hz))
    refine ⟨y :: out, ?_, by simp [hlen]⟩
    simp only [mapExcept, hy, hout]

/-- Requested ids that are not registered contribute nothing to the
resolution, so filtering them away first changes nothing. -/
theorem filterMap_resolve_filter (r : MetricProvidersRegistry) :
    ∀ ids : List String,
      ids.filterMap (resolveMetricForId r) =
      (ids.filter (fun i => (assocGet r.metricProviders i).isSome)).filterMap
        (resolveMetricForId r) := by
  intro ids
  induction ids with
  | nil => rfl
  | cons i rest ih =>
    cases hg : assocGet r.metricProviders i with
    | none =>
      have hres : resolveMetricForId r i = none := by
        simp [resolveMetricForId, hg]
      simp [List.filterMap_cons, List.filter_cons, hres, hg, ih]
    | some p =>
      have hsome : (assocGet r.metricProviders i).isSome = true := by
        simp [hg]
      simp only [List.filterMap_cons, List.filter_cons, hsome, if_pos]
      rw [ih]

/-- Shape of a drill-down response when no `entityName` filter is active:
the store is queried with offset/limit pagination and the fetched page is
enriched and sorted client-side. -/
theorem getEntityMetricDetails_noname (store : List DbMetricValue)
    (r : MetricProvidersRegistry)
    (cb : List String → Option (List (Option Entity)))
    (entityRefs : List String) (metricId : String) (opts : DetailsOptions)
    (m : Metric) (rows : List DbMetricValue) (dbTotal : Nat)
    (hm : registryGetMetric r metricId = .ok m)
    (hname : opts.entityName = none)
    (hdb : readEntityMetricsByStatus store entityRefs metricId opts.status
      opts.kind opts.owner
      (some ⟨opts.limit, (opts.page - 1) * opts.limit⟩) = (rows, dbTotal)) :
    getEntityMetricDetails store r cb entityRefs metricId opts = .ok
      { metricId := m.id
        metricTitle := m.title
        metricDescription := m.description
        metricType := m.type
        entities := sortDetails opts.sortBy opts.sortOrder
          (rows.map (enrichRow
            (detailsEntityMap cb (rows.map (·.catalog_entity_ref)))))
        pagination :=
          { page := opts.page
            pageSize := opts.limit
            total := dbTotal
            totalPages := ceilDiv dbTotal opts.limit } } := by
  unfold getEntityMetricDetails
  simp only [hname, strTruthy, hdb, hm, appNameFilter, Bool.false_eq_true,
    if_false, ite_false]

/-- A thrown catalog batch lookup leaves the entity map empty. -/
theorem detailsEntityMap_throw
    (cb : List String → Option (List (Option Entity))) (refs : List String)
    (hcb : cb refs = none) : detailsEntityMap cb refs = [] := by
  unfold detailsEntityMap
  split
  · rw [hcb]
  · rfl

/-- Enrichment against the empty entity map produces the denormalized
fallback row. -/
theorem enrichRow_empty (row : DbMetricValue) :
    enrichRow [] row =
      ⟨row.catalog_entity_ref, "Unknown", row.entity_kind.getD "Unknown",
        row.entity_owner.getD "Unknown", row.value, row.timestamp,
        row.status⟩ := rfl

/-- With a non-empty search term, the application-level name filter keeps
exactly the rows whose lowercased display name contains the lowercased
term. -/
theorem appNameFilter_truthy (term : String) (hterm : term ≠ "")
    (l : List EntityMetricDetail) :
    appNameFilter (some term) l =
      l.filter (fun e => strIncludes (strLower e.entityName)
        (strLower term)) := by
  simp [appNameFilter, strTruthy, hterm]

/-- Shape of a drill-down response when the `entityName` filter is active:
the store is queried without pagination, and filtering, sorting and
pagination all happen in the application. -/
theorem getEntityMetricDetails_name (store : List DbMetricValue)
    (r : MetricProvidersRegistry)
    (cb : List String → Option (List (Option Entity)))
    (entityRefs : List String) (metricId : String) (opts : DetailsOptions)
    (m : Metric) (term : String) (rows : List DbMetricValue) (dbTotal : Nat)
    (hm : registryGetMetric r metricId = .ok m)
    (hname : opts.entityName = some term) (hterm : term ≠ "")
    (hdb : readEntityMetricsByStatus store entityRefs metricId opts.status
      opts.kind opts.owner none = (rows, dbTotal)) :
    getEntityMetricDetails store r cb entityRefs metricId opts = .ok
      { metricId := m.id
        metricTitle := m.title
        metricDescription := m.description
        metricType := m.type
        entities :=
          ((sortDetails opts.sortBy opts.sortOrder
            (appNameFilter (some term)
              (rows.map (enrichRow (detailsEntityMap cb
                (rows.map (·.catalog_entity_ref))))))).drop
            ((opts.page - 1) * opts.limit)).take opts.limit
        pagination :=
          { page := opts.page
            pageSize := opts.limit
            total := (sortDetails opts.sortBy opts.sortOrder
              (appNameFilter (some term)
                (rows.map (enrichRow (detailsEntityMap cb
                  (rows.map (·.catalog_entity_ref))))))).length
            totalPages := ceilDiv ((sortDetails opts.sortBy opts.sortOrder
              (appNameFilter (some term)
                (rows.map (enrichRow (detailsEntityMap cb
                  (rows.map (·.catalog_entity_ref))))))).length)
              opts.limit } } := by
  have htr : strTruthy (some term) = true := by
    simp [strTruthy, hterm]
  unfold getEntityMetricDetails
  simp only [hname, htr, if_true, ite_true, hdb, hm]

/-! ## Claim theorems -/

/-- C1, counterexample: the claim says that when the catalog batch lookup
throws, the returned `entities` list is empty.  On the code, with one stored
row matching the filters and a throwing catalog, the row is returned with
denormalized fallback data (`Unknown` name) instead of being dropped. -/
theorem C1_counterexample :
    (getEntityMetricDetails [rowA] regG catalogThrows [] "github.m"
        optsBase).map
      (fun resp => resp.entities.map (fun e =>
        (e.entityRef, e.entityName, e.entityKind, e.owner))) =
    .ok [("component:default/service-a", "Unknown", "Component",
      "team:default/platform")] := by
  rfl

/-- C1, amended: when the catalog batch lookup throws during a drill-down
query (without an `entityName` filter), the error is caught and every
stored row matching the filters is still returned, populated with
denormalized fallback data: name `Unknown`, kind and owner from the stored
columns (`Unknown` when those are null). -/
theorem C1_amended_catalog_throw_falls_back (store : List DbMetricValue)
    (r : MetricProvidersRegistry)
    (cb : List String → Option (List (Option Entity)))
    (entityRefs : List String) (metricId : String) (opts : DetailsOptions)
    (m : Metric) (rows : List DbMetricValue) (dbTotal : Nat)
    (hm : registryGetMetric r metricId = .ok m)
    (hname : opts.entityName = none)
    (hdb : readEntityMetricsByStatus store entityRefs metricId opts.status
      opts.kind opts.owner
      (some ⟨opts.limit, (opts.page - 1) * opts.limit⟩) = (rows, dbTotal))
    (hcb : cb (rows.map (·.catalog_entity_ref)) = none) :
    ∃ resp, getEntityMetricDetails store r cb entityRefs metricId opts =
        .ok resp ∧
      resp.entities.length = rows.length ∧
      ∀ row ∈ rows,
        (⟨row.catalog_entity_ref, "Unknown", row.entity_kind.getD "Unknown",
          row.entity_owner.getD "Unknown", row.value, row.timestamp,
          row.status⟩ : EntityMetricDetail) ∈ resp.entities := by
  refine ⟨_, getEntityMetricDetails_noname store r cb entityRefs metricId
    opts m rows dbTotal hm hname hdb, ?_, ?_⟩
  · rw [length_sortDetails, detailsEntityMap_throw _ _ hcb, List.length_map]
  · intro row hrow
    rw [mem_sortDetails, detailsEntityMap_throw _ _ hcb]
    rw [← enrichRow_empty row]
    exact List.mem_map_of_mem _ hrow

/-- C1, witness: the amended theorem applied to a one-row store with a
throwing catalog. -/
theorem C1_amended_witness :
    ∃ resp, getEntityMetricDetails [rowA] regG catalogThrows []
        "github.m" optsBase = .ok resp ∧
      resp.entities.length = [rowA].length ∧
      ∀ row ∈ [rowA],
        (⟨row.catalog_entity_ref, "Unknown", row.entity_kind.getD "Unknown",
          row.entity_owner.getD "Unknown", row.value, row.timestamp,
          row.status⟩ : EntityMetricDetail) ∈ resp.entities :=
  C1_amended_catalog_throw_falls_back [rowA] regG catalogThrows []
    "github.m" optsBase mG [rowA] 1 (by rfl) (by rfl) (by rfl) (by rfl)

/-- C2: the claim (and the in-repo drill-down documentation) says sorting
and pagination are both performed by the same store query, so the
concatenation of pages is globally sorted.  On the code, pagination happens
in the store but sorting is applied client-side to each fetched page, so
with two stored rows of values 1 and 2 and a `metricValue` descending sort
with page size 1, page 1 returns the value-1 row and page 2 the value-2 row:
the concatenation [1, 2] is not descending. -/
theorem C2_pages_not_globally_sorted :
    ((getEntityMetricDetails [rowA, rowB] regG catalogEmptyItems []
          "github.m" (optsValDesc 1)).map
        (fun resp => resp.entities.map (fun e => e.metricValue)) =
      .ok [some 1]) ∧
    ((getEntityMetricDetails [rowA, rowB] regG catalogEmptyItems []
          "github.m" (optsValDesc 2)).map
        (fun resp => resp.entities.map (fun e => e.metricValue)) =
      .ok [some 2]) := by
  exact ⟨rfl, rfl⟩

/-- C3, counterexample: the claim says the `entityName` filter is pushed to
storage and matches against the full entity reference, so the search term
`component:` (a case-insensitive substring of the stored full ref) should
return the row.  On the code, the filter runs in the application against the
catalog display name `service-a`, and the row is excluded. -/
theorem C3_counterexample :
    ((getEntityMetricDetails [rowA] regG (fun _ => some [some entA]) []
          "github.m" optsSearch).map (fun resp => resp.entities) =
      .ok []) ∧
    strIncludes (strLower "component:default/service-a")
      (strLower "component:") = true := by
  exact ⟨rfl, rfl⟩

/-- C3, amended: the `entityName` filter runs in the application, after
fetching all rows passing the storage filters (the store is queried without
pagination), and matches by case-insensitive substring against the enriched
display name (the catalog `metadata.name`, or the `Unknown` fallback): a row
appears on some page if and only if it is among the enriched fetched rows
and the search term is a case-insensitive substring of its display name. -/
theorem C3_amended_name_filter_app_level (store : List DbMetricValue)
    (r : MetricProvidersRegistry)
    (cb : List String → Option (List (Option Entity)))
    (entityRefs : List String) (metricId : String) (opts : DetailsOptions)
    (m : Metric) (term : String) (rows : List DbMetricValue) (dbTotal : Nat)
    (em : List (String × Entity)) (d : EntityMetricDetail)
    (hm : registryGetMetric r metricId = .ok m)
    (hname : opts.entityName = some term) (hterm : term ≠ "")
    (hdb : readEntityMetricsByStatus store entityRefs metricId opts.status
      opts.kind opts.owner none = (rows, dbTotal))
    (hem : em = detailsEntityMap cb (rows.map (·.catalog_entity_ref)))
    (hlim : 1 ≤ opts.limit) :
    (∃ p, 1 ≤ p ∧ ∃ resp, getEntityMetricDetails store r cb entityRefs
        metricId { opts with page := p } = .ok resp ∧ d ∈ resp.entities) ↔
    (d ∈ rows.map (enrichRow em) ∧
      strIncludes (strLower d.entityName) (strLower term) = true) := by
  subst hem
  have hkey : ∀ p : Nat, getEntityMetricDetails store r cb entityRefs
      metricId { opts with page := p } = .ok
      { metricId := m.id
        metricTitle := m.title
        metricDescription := m.description
        metricType := m.type
        entities :=
          ((sortDetails opts.sortBy opts.sortOrder
            (appNameFilter (some term)
              (rows.map (enrichRow (detailsEntityMap cb
                (rows.map (·.catalog_entity_ref))))))).drop
            ((p - 1) * opts.limit)).take opts.limit
        pagination :=
          { page := p
            pageSize := opts.limit
            total := (sortDetails opts.sortBy opts.sortOrder
              (appNameFilter (some term)
                (rows.map (enrichRow (detailsEntityMap cb
                  (rows.map (·.catalog_entity_ref))))))).length
            totalPages := ceilDiv ((sortDetails opts.sortBy opts.sortOrder
              (appNameFilter (some term)
                (rows.map (enrichRow (detailsEntityMap cb
                  (rows.map (·.catalog_entity_ref))))))).length)
              opts.limit } } := fun p =>
    getEntityMetricDetails_name store r cb entityRefs metricId
      { opts with page := p } m term rows dbTotal hm hname hterm hdb
  constructor
  · rintro ⟨p, _, resp, hresp, hd⟩
    rw [hkey p] at hresp
    injection hresp with hresp
    subst hresp
    have hsorted := List.mem_of_mem_drop (List.mem_of_mem_take hd)
    rw [mem_sortDetails, appNameFilter_truthy term hterm] at hsorted
    exact List.mem_filter.mp hsorted
  · rintro ⟨hmem, hpred⟩
    have hsorted : d ∈ sortDetails opts.sortBy opts.sortOrder
        (appNameFilter (some term)
          (rows.map (enrichRow (detailsEntityMap cb
            (rows.map (·.catalog_entity_ref)))))) := by
      rw [mem_sortDetails, appNameFilter_truthy term hterm]
      exact List.mem_filter.mpr ⟨hmem, hpred⟩
    obtain ⟨p, hp, hin⟩ := (mem_pages_iff _ opts.limit hlim d).mpr hsorted
    exact ⟨p, hp, _, hkey p, hin⟩

/-- C3, witness: the amended theorem applied to a one-row store with the
search term `service`, which is a substring of the display name
`service-a`. -/
theorem C3_amended_witness :
    (∃ p, 1 ≤ p ∧ ∃ resp, getEntityMetricDetails [rowA] regG
        (fun _ => some [some entA]) [] "github.m"
        { (⟨none, none, none, some "service", none, none, 1, 10⟩ :
          DetailsOptions) with page := p } = .ok resp ∧
        (⟨"component:default/service-a", "service-a", "Component",
          "team:default/platform", some 1, 100, some "success"⟩ :
          EntityMetricDetail) ∈ resp.entities) ↔
    ((⟨"component:default/service-a", "service-a", "Component",
        "team:default/platform", some 1, 100, some "success"⟩ :
        EntityMetricDetail) ∈
      [rowA].map (enrichRow [("component:default/service-a", entA)]) ∧
      strIncludes (strLower "service-a") (strLower "service") = true) :=
  C3_amended_name_filter_app_level [rowA] regG (fun _ => some [some entA])
    [] "github.m" ⟨none, none, none, some "service", none, none, 1, 10⟩ mG
    "service" [rowA] 1 [("component:default/service-a", entA)]
    ⟨"component:default/service-a", "service-a", "Component",
      "team:default/platform", some 1, 100, some "success"⟩
    (by rfl) (by rfl) (by decide) (by rfl) (by rfl) (by decide)

/-- C4: the claim (and the inline source comment and the in-repo drill-down
documentation) says rows with a null metric value sort last regardless of
direction.  On the code, `metricValue ?? -Infinity` places null rows first
when sorting by `metricValue` ascending: with a null row and a value-2 row
stored, ascending order returns the null row first. -/
theorem C4_null_first_ascending :
    (getEntityMetricDetails [rowN, rowB] regG catalogEmptyItems []
        "github.m" optsAsc).map
      (fun resp => resp.entities.map (fun e => e.metricValue)) =
    .ok [none, some 2] := by
  rfl

/-- C5, counterexample: the claim says a row whose entity reference is
absent from a successful catalog response is dropped from the returned
list.  On the code, with two stored rows and a catalog response carrying an
item only for the first, the second row is kept and shown with placeholder
and denormalized data (`Unknown` name, stored kind and owner). -/
theorem C5_counterexample :
    (getEntityMetricDetails [rowA, rowB] regG
        (fun _ => some [some entA, none]) [] "github.m" optsBase).map
      (fun resp => resp.entities.map (fun e =>
        (e.entityRef, e.entityName, e.entityKind, e.owner))) =
    .ok [("component:default/service-a", "service-a", "Component",
        "team:default/platform"),
      ("component:default/service-b", "Unknown", "Component",
        "team:default/backend")] := by
  rfl

/-- C5, amended: when the catalog batch lookup succeeds, a row whose entity
reference is absent from the catalog response is kept in the returned list
(no row is dropped: the page keeps the length of the fetched rows) and is
shown with placeholder and denormalized data: name `Unknown`, kind and owner
from the stored columns (`Unknown` when those are null). -/
theorem C5_amended_absent_refs_kept (store : List DbMetricValue)
    (r : MetricProvidersRegistry)
    (cb : List String → Option (List (Option Entity)))
    (entityRefs : List String) (metricId : String) (opts : DetailsOptions)
    (m : Metric) (rows : List DbMetricValue) (dbTotal : Nat)
    (items : List (Option Entity)) (em : List (String × Entity))
    (hm : registryGetMetric r metricId = .ok m)
    (hname : opts.entityName = none)
    (hdb : readEntityMetricsByStatus store entityRefs metricId opts.status
      opts.kind opts.owner
      (some ⟨opts.limit, (opts.page - 1) * opts.limit⟩) = (rows, dbTotal))
    (hcb : cb (rows.map (·.catalog_entity_ref)) = some items)
    (hem : em = detailsEntityMap cb (rows.map (·.catalog_entity_ref))) :
    ∃ resp, getEntityMetricDetails store r cb entityRefs metricId opts =
        .ok resp ∧
      resp.entities.length = rows.length ∧
      ∀ row ∈ rows, assocGet em row.catalog_entity_ref = none →
        (⟨row.catalog_entity_ref, "Unknown", row.entity_kind.getD "Unknown",
          row.entity_owner.getD "Unknown", row.value, row.timestamp,
          row.status⟩ : EntityMetricDetail) ∈ resp.entities := by
  refine ⟨_, getEntityMetricDetails_noname store r cb entityRefs metricId
    opts m rows dbTotal hm hname hdb, ?_, ?_⟩
  · rw [length_sortDetails, List.length_map]
  · intro row hrow habsent
    rw [mem_sortDetails]
    have hrow_eq : enrichRow (detailsEntityMap cb
        (rows.map (·.catalog_entity_ref))) row =
        ⟨row.catalog_entity_ref, "Unknown", row.entity_kind.getD "Unknown",
          row.entity_owner.getD "Unknown", row.value, row.timestamp,
          row.status⟩ := by
      rw [hem] at habsent
      simp [enrichRow, habsent]
    rw [← hrow_eq]
    exact List.mem_map_of_mem _ hrow

/-- C5, witness: the amended theorem applied to a two-row store whose
catalog response carries an item only for the first row. -/
theorem C5_amended_witness :
    ∃ resp, getEntityMetricDetails [rowA, rowB] regG
        (fun _ => some [some entA, none]) [] "github.m" optsBase =
        .ok resp ∧
      resp.entities.length = [rowA, rowB].length ∧
      ∀ row ∈ [rowA, rowB],
        assocGet [("component:default/service-a", entA)]
          row.catalog_entity_ref = none →
        (⟨row.catalog_entity_ref, "Unknown", row.entity_kind.getD "Unknown",
          row.entity_owner.getD "Unknown", row.value, row.timestamp,
          row.status⟩ : EntityMetricDetail) ∈ resp.entities :=
  C5_amended_absent_refs_kept [rowA, rowB] regG
    (fun _ => some [some entA, none]) [] "github.m" optsBase mG
    [rowA, rowB] 2 [some entA, none]
    [("component:default/service-a", entA)]
    (by rfl) (by rfl) (by rfl) (by rfl) (by rfl)

/-- C6, counterexample: the claim says registration fails with
`ValidationError` when a metric id has no matching metric definition.  On
the code, registering a provider whose id `ds.a` has no definition fails
with a plain `Error`, not a `ValidationError`. -/
theorem C6_counterexample :
    (register emptyRegistry pNoDef).2 =
      some (.generic ("Invalid metric provider: metric ID ds.a returned by " ++
        "getMetricIds() does not have a corresponding metric in getMetrics()")) ∧
    ((register emptyRegistry pNoDef).2.map RegError.isValidation) =
      some false := by
  exact ⟨rfl, rfl⟩

/-- C6, amended: for a provider whose metric-id list reaches the id after a
fully successful initial segment, registration fails with a plain `Error`
(not `ValidationError`) when the id has no matching metric definition, when
the matching definition's type differs from the declared type, and when the
id does not start with the datasource id followed by a dot and a non-empty
suffix; and it fails with `ConflictError` when the id is already
registered. -/
theorem C6_amended_register_failure_classes (r r' : MetricProvidersRegistry)
    (p : MetricProvider) (ids1 ids2 : List String) (id : String)
    (hids : effIds p = ids1 ++ id :: ids2)
    (hpre : registerList p (effMetrics p) r ids1 = (r', none)) :
    ((effMetrics p).find? (fun m => m.id == id) = none →
      (register r p).2 = some (.generic
        ("Invalid metric provider: metric ID " ++ id ++
          " returned by getMetricIds() does not have a corresponding metric in getMetrics()"))) ∧
    (∀ metric, (effMetrics p).find? (fun m => m.id == id) = some metric →
      p.metricType ≠ metric.type →
      (register r p).2 = some (.generic
        ("Invalid metric provider with ID " ++ id ++
          ", getMetricType() must match getMetric().type. Expected " ++
          p.metricType ++ ", but got " ++ metric.type))) ∧
    (∀ metric, (effMetrics p).find? (fun m => m.id == id) = some metric →
      p.metricType = metric.type →
      (¬ strStartsWith id (p.providerDatasourceId ++ ".") ∨
        id = p.providerDatasourceId ++ ".") →
      (register r p).2 = some (.generic
        ("Invalid metric provider with ID " ++ id ++
          ", must have format " ++ (p.providerDatasourceId ++ ".") ++
          "<metric_name> where metric name is not empty"))) ∧
    (∀ metric, (effMetrics p).find? (fun m => m.id == id) = some metric →
      p.metricType = metric.type →
      (strStartsWith id (p.providerDatasourceId ++ ".") = true ∧
        id ≠ p.providerDatasourceId ++ ".") →
      (assocGet r'.metricProviders id).isSome = true →
      (register r p).2 = some (.conflict
        ("Metric provider with ID " ++ id ++
          " has already been registered"))) := by
  have hreg : register r p = registerList p (effMetrics p) r' (id :: ids2) := by
    unfold register
    rw [hids, registerList_append p (effMetrics p) ids1 r r' hpre]
  refine ⟨?_, ?_, ?_, ?_⟩
  · intro hfind
    have hstep : registerStep r' p (effMetrics p) id = .error (.generic
        ("Invalid metric provider: metric ID " ++ id ++
          " returned by getMetricIds() does not have a corresponding metric in getMetrics()")) := by
      simp only [registerStep, hfind]
    rw [hreg]
    simp only [registerList, hstep]
  · intro metric hfind hne
    have hstep : registerStep r' p (effMetrics p) id = .error (.generic
        ("Invalid metric provider with ID " ++ id ++
          ", getMetricType() must match getMetric().type. Expected " ++
          p.metricType ++ ", but got " ++ metric.type)) := by
      simp only [registerStep, hfind, if_pos hne]
    rw [hreg]
    simp only [registerList, hstep]
  · intro metric hfind hty hbad
    have hstep : registerStep r' p (effMetrics p) id = .error (.generic
        ("Invalid metric provider with ID " ++ id ++
          ", must have format " ++ (p.providerDatasourceId ++ ".") ++
          "<metric_name> where metric name is not empty")) := by
      simp only [registerStep, hfind]
      rw [if_neg (by simp [hty]), if_pos hbad]
    rw [hreg]
    simp only [registerList, hstep]
  · intro metric hfind hty hgood hdup
    have hstep : registerStep r' p (effMetrics p) id = .error (.conflict
        ("Metric provider with ID " ++ id ++
          " has already been registered")) := by
      simp only [registerStep, hfind]
      rw [if_neg (by simp [hty]), if_neg (by simp [hgood.1, hgood.2]),
        if_pos hdup]
    rw [hreg]
    simp only [registerList, hstep]

/-- C6, witness: the amended theorem applied to four concrete providers,
one per failure class. -/
theorem C6_amended_witness :
    (register emptyRegistry pNoDef).2 = some (.generic
      ("Invalid metric provider: metric ID ds.a returned by " ++
        "getMetricIds() does not have a corresponding metric in getMetrics()")) ∧
    (register emptyRegistry pMis).2 = some (.generic
      ("Invalid metric provider with ID ds.a, getMetricType() must match " ++
        "getMetric().type. Expected boolean, but got number")) ∧
    (register emptyRegistry pPre).2 = some (.generic
      ("Invalid metric provider with ID other.a, must have format " ++
        "ds.<metric_name> where metric name is not empty")) ∧
    (register regG pG).2 = some (.conflict
      "Metric provider with ID github.m has already been registered") := by
  refine ⟨?_, ?_, ?_, ?_⟩
  · exact (C6_amended_register_failure_classes emptyRegistry emptyRegistry
      pNoDef [] [] "ds.a" rfl rfl).1 rfl
  · exact (C6_amended_register_failure_classes emptyRegistry emptyRegistry
      pMis [] [] "ds.a" rfl rfl).2.1 mA rfl (by decide)
  · exact (C6_amended_register_failure_classes emptyRegistry emptyRegistry
      pPre [] [] "other.a" rfl rfl).2.2.1 mOther rfl rfl
      (Or.inl (by decide))
  · exact (C6_amended_register_failure_classes regG regG pG [] [] "github.m"
      rfl rfl).2.2.2 mG rfl rfl ⟨by rfl, by decide⟩ rfl

/-- C7: when registration of a multi-metric provider fails at some id after
a fully successful initial segment, the registry keeps the state built so
far: every id of the successful segment remains registered to the provider
(lookups succeed), and every binding that existed before the call — in
particular a first provider's registration that a second provider's
conflicting call runs into — is unchanged. -/
theorem C7_partial_registration_preserved (r r' : MetricProvidersRegistry)
    (p : MetricProvider) (ids1 ids2 : List String) (id : String)
    (e : RegError)
    (hids : effIds p = ids1 ++ id :: ids2)
    (hpre : registerList p (effMetrics p) r ids1 = (r', none))
    (hfail : registerStep r' p (effMetrics p) id = .error e) :
    (register r p).1 = r' ∧
    (∀ j ∈ ids1, getProvider (register r p).1 j = .ok p) ∧
    (∀ k q, getProvider r k = .ok q →
      getProvider (register r p).1 k = .ok q) := by
  have hreg : register r p = (r', some e) := by
    unfold register
    rw [hids, registerList_append p (effMetrics p) ids1 r r' hpre]
    simp only [registerList, hfail]
  refine ⟨by rw [hreg], ?_, ?_⟩
  · intro j hj
    rw [hreg]
    have hb := registerList_ok_regs p (effMetrics p) ids1 r r' hpre j hj
    unfold getProvider
    rw [hb]
  · intro k q hk
    rw [hreg]
    unfold getProvider at hk ⊢
    cases hg : assocGet r.metricProviders k with
    | none => rw [hg] at hk; exact absurd hk (by simp)
    | some q' =>
      rw [hg] at hk
      have hb := registerList_preserves p (effMetrics p) ids1 r k q' hg
      rw [hpre] at hb
      rw [hb]
      exact hk

/-- C7, witness: the theorem applied to a batch provider whose second id is
invalid, registered into the registry already holding `pG`. -/
theorem C7_witness :
    (register regG pPart).1 = regMid ∧
    getProvider (register regG pPart).1 "ds.a" = .ok pPart ∧
    getProvider (register regG pPart).1 "github.m" = .ok pG := by
  have h := C7_partial_registration_preserved regG regMid pPart ["ds.a"] []
    "ds.bad"
    (.generic ("Invalid metric provider: metric ID ds.bad returned by " ++
      "getMetricIds() does not have a corresponding metric in getMetrics()"))
    rfl rfl rfl
  exact ⟨h.1, h.2.1 "ds.a" (by simp), h.2.2 "github.m" pG rfl⟩

/-- C8, counterexample: the claim says `listProviders()` deduplicates batch
providers.  On the code, a batch provider registered under two metric ids is
returned twice by `listProviders()`. -/
theorem C8_counterexample :
    (register emptyRegistry pB2).2 = none ∧
    (listProviders (register emptyRegistry pB2).1).length = 2 := by
  exact ⟨rfl, rfl⟩

/-- C8, amended: `listMetrics()` with no argument and
`listMetricsByDatasource(id)` deduplicate batch providers — a provider
successfully registered under its metric ids from an empty registry
contributes its metric definitions exactly once each — while
`listProviders()` does not: it returns one entry per registered metric
id. -/
theorem C8_amended_dedup (p : MetricProvider) (r' : MetricProvidersRegistry)
    (hne : effIds p ≠ [])
    (hreg : register emptyRegistry p = (r', none)) :
    listMetrics r' none = effMetrics p ∧
    listMetricsByDatasource r' p.providerDatasourceId = effMetrics p ∧
    (listProviders r').length = (effIds p).length := by
  obtain ⟨hmp, hdi⟩ := register_from_empty_build p r' hne hreg
  rcases hids : effIds p with _ | ⟨id, rest⟩
  · exact absurd hids hne
  refine ⟨?_, ?_, ?_⟩
  · show listMetricsAll r' = effMetrics p
    unfold listMetricsAll
    rw [hmp, hids]
    have hval : ((id :: rest).map (fun i => (i, p))).map (fun e => e.2) =
        p :: rest.map (fun _ => p) := by
      simp only [List.map_map]
      rfl
    rw [hval]
    rw [collectAll_cons_new [] p _ (List.not_mem_nil p), List.nil_append]
    rw [collectAll_all_seen [p] _ (by
      intro x hx
      obtain ⟨y, _, rfl⟩ := List.mem_map.mp hx
      exact List.mem_singleton.mpr rfl)]
    simp [effMetrics]
  · unfold listMetricsByDatasource
    rw [hdi]
    have hds : assocGet [(p.providerDatasourceId, effIds p)]
        p.providerDatasourceId = some (effIds p) := by
      simp [assocGet]
    rw [hds, hids]
    have hresolve : ∀ i ∈ effIds p, assocGet r'.metricProviders i = some p := by
      intro i hi
      rw [hmp]
      exact assocGet_mapSelf p (effIds p) i hi
    show collectByIds r' [] (id :: rest) = effMetrics p
    rw [collectByIds_cons_resolve r' [] id rest p
      (hresolve id (by rw [hids]; exact List.mem_cons_self id rest))
      (List.not_mem_nil p), List.nil_append]
    rw [collectByIds_seen r' p rest [p] (by
      intro j hj
      exact hresolve j (by rw [hids]; exact List.mem_cons_of_mem id hj))
      (List.mem_singleton.mpr rfl)]
    simp [effMetrics]
  · unfold listProviders
    rw [hmp]
    simp [hids]

/-- C8, witness: the amended theorem applied to the two-id batch provider
`pB2`. -/
theorem C8_amended_witness :
    listMetrics (register emptyRegistry pB2).1 none = effMetrics pB2 ∧
    listMetricsByDatasource (register emptyRegistry pB2).1 "ds" =
      effMetrics pB2 ∧
    (listProviders (register emptyRegistry pB2).1).length =
      (effIds pB2).length :=
  C8_amended_dedup pB2 (register emptyRegistry pB2).1 (by decide) (by rfl)

/-- C9: for every row processed by `getLatestEntityMetrics` whose provider
resolves and whose stored error message is not the empty string: the
metric-level status is `error` exactly when the stored error message is
present and the value is null; when the threshold merge succeeds, a null
value yields the missing-value threshold error (taking precedence over any
stored error message), otherwise a present error message is surfaced as the
threshold error, otherwise the thresholds are attached with a success
status; a threshold-merge failure is caught and surfaced as the threshold
error; and a batch whose rows all have resolvable providers always yields
one result per row, whatever the merge function does. -/
theorem C9_status_and_threshold_precedence (r : MetricProvidersRegistry)
    (entity : Entity)
    (mergeF : Entity → MetricProvider → Except String ThresholdConfig)
    (row : DbMetricValue) (provider : MetricProvider) (mr : MetricResult)
    (hp : getProvider r row.metric_id = .ok provider)
    (hne : row.error_message ≠ some "")
    (hrun : processMetricValueRow r entity mergeF row = .ok mr) :
    (mr.status = "error" ↔ (row.error_message ≠ none ∧ row.value = none)) ∧
    (∀ e, mergeF entity provider = .error e →
      mr.result.thresholdResult.status = "error" ∧
      mr.result.thresholdResult.error = some e) ∧
    (∀ thr, mergeF entity provider = .ok thr → row.value = none →
      mr.result.thresholdResult.status = "error" ∧
      mr.result.thresholdResult.error =
        some "Unable to evaluate thresholds, metric value is missing") ∧
    (∀ thr msg, mergeF entity provider = .ok thr → row.value ≠ none →
      row.error_message = some msg →
      mr.result.thresholdResult.status = "error" ∧
      mr.result.thresholdResult.error = some msg) ∧
    (∀ thr, mergeF entity provider = .ok thr → row.value ≠ none →
      row.error_message = none →
      mr.result.thresholdResult.status = "success" ∧
      mr.result.thresholdResult.error = none ∧
      mr.result.thresholdResult.definition = some thr) ∧
    (∀ rows : List DbMetricValue,
      (∀ rw ∈ rows, ∃ q, getProvider r rw.metric_id = .ok q) →
      ∃ out, mapExcept (processMetricValueRow r entity mergeF) rows =
        .ok out ∧ out.length = rows.length) := by
  refine ⟨?_, ?_, ?_, ?_, ?_, ?_⟩
  · have h := hrun
    simp only [processMetricValueRow, hp] at h
    injection h with h
    subst h
    by_cases hC : row.error_message ≠ none ∧ row.value = none
    · simp only [if_pos hC]
      simp [hC]
    · simp only [if_neg hC]
      constructor
      · intro habs
        exact absurd habs (by decide)
      · intro habs
        exact absurd habs hC
  · intro e hpm
    have h := hrun
    simp only [processMetricValueRow, hp, hpm] at h
    injection h with h
    subst h
    exact ⟨rfl, rfl⟩
  · intro thr hpm hval
    have h := hrun
    simp only [processMetricValueRow, hp, hpm, hval] at h
    injection h with h
    subst h
    exact ⟨rfl, rfl⟩
  · intro thr msg hpm hval hmsg
    have hmsg_ne : msg ≠ "" := by
      intro habs
      subst habs
      exact hne hmsg
    have h := hrun
    simp only [processMetricValueRow, hp, hpm, hmsg, hval, strTruthy,
      hmsg_ne] at h
    injection h with h
    subst h
    constructor
    · simp [hmsg_ne]
    · simp [hmsg_ne]
  · intro thr hpm hval hmsg
    have h := hrun
    simp only [processMetricValueRow, hp, hpm, hmsg, hval, strTruthy] at h
    injection h with h
    subst h
    exact ⟨rfl, rfl, rfl⟩
  · intro rows hall
    refine mapExcept_ok _ rows ?_
    intro rw hrw
    obtain ⟨q, hq⟩ := hall rw hrw
    exact processMetricValueRow_ok_of_provider r entity mergeF rw q hq

/-- C9, witness: the theorem applied to `rowA` with a throwing merge
function; the merge error is surfaced as the threshold error. -/
theorem C9_witness :
    mrFail.result.thresholdResult.status = "error" ∧
    mrFail.result.thresholdResult.error = some "boom" :=
  (C9_status_and_threshold_precedence regG entA mfFail rowA pG mrFail
    (by rfl) (by simp [rowA]) (by rfl)).2.1 "boom" rfl

/-- C10: for a consistent registry and a non-empty requested id list,
`listMetrics` silently omits unregistered ids (it equals the resolution of
the registered ids alone, with no error), every returned metric belongs to
a requested and registered id, and consequently `getLatestEntityMetrics`
over such an id list succeeds (returns `.ok`) even when the list contains
unknown ids. -/
theorem C10_unknown_ids_silently_omitted (store : List DbMetricValue)
    (r : MetricProvidersRegistry) (ids : List String) (entity : Entity)
    (mergeF : Entity → MetricProvider → Except String ThresholdConfig)
    (entityRef : String) (filter : Option Criteria)
    (hinv : registryConsistent r = true) (hne : ids ≠ []) :
    (listMetrics r (some ids) =
      (ids.filter (fun i => (assocGet r.metricProviders i).isSome)).filterMap
        (resolveMetricForId r)) ∧
    (∀ m ∈ listMetrics r (some ids), m.id ∈ ids ∧
      (assocGet r.metricProviders m.id).isSome = true) ∧
    (∃ out, getLatestEntityMetrics store r (some entity) mergeF entityRef
      (some ids) filter = .ok out) := by
  have hlist : listMetrics r (some ids) =
      ids.filterMap (resolveMetricForId r) := by
    simp only [listMetrics]
    rw [if_pos hne]
  have hb : ∀ m ∈ listMetrics r (some ids), m.id ∈ ids ∧
      (assocGet r.metricProviders m.id).isSome = true := by
    intro m hm
    rw [hlist] at hm
    obtain ⟨i, hi, hres⟩ := List.mem_filterMap.mp hm
    cases hg : assocGet r.metricProviders i with
    | none => simp [resolveMetricForId, hg] at hres
    | some p =>
      have hid : m.id = i := by
        simp only [resolveMetricForId, hg] at hres
        cases hgm : p.getMetrics with
        | some ms =>
          rw [hgm] at hres
          have := List.find?_some hres
          exact beq_iff_eq.mp this
        | none =>
          rw [hgm] at hres
          injection hres with hres
          subst hres
          have hmem := assocGet_mem r.metricProviders i p hg
          have := List.all_eq_true.mp hinv _ hmem
          simp only [hgm] at this
          exact beq_iff_eq.mp this
      subst hid
      exact ⟨hi, by rw [hg]; rfl⟩
  refine ⟨by rw [hlist, ← filterMap_resolve_filter], hb, ?_⟩
  have hall : ∀ rw ∈ readLatestEntityMetricValues store entityRef
      ((filterAuthorizedMetrics (listMetrics r (some ids)) filter).map
        (fun m => m.id)),
      ∃ y, processMetricValueRow r entity mergeF rw = .ok y := by
    intro rw hrw
    have hmid := readLatest_metric_id_mem store entityRef _ rw hrw
    obtain ⟨mm, hmm_mem, hmm_id⟩ := List.mem_map.mp hmid
    have hmm := hb mm (filterAuthorizedMetrics_subset _ _ _ hmm_mem)
    obtain ⟨q, hq⟩ := Option.isSome_iff_exists.mp hmm.2
    refine processMetricValueRow_ok_of_provider r entity mergeF rw q ?_
    unfold getProvider
    rw [← hmm_id, hq]
  obtain ⟨out, hout, _⟩ := mapExcept_ok _ _ hall
  exact ⟨out, hout⟩

/-- C10, witness: the theorem applied to the registry holding only
`github.m` and the request `[github.m, unknown.x]`: the unknown id is
omitted and the call succeeds. -/
theorem C10_witness :
    (listMetrics regG (some ["github.m", "unknown.x"]) =
      ((["github.m", "unknown.x"].filter
        (fun i => (assocGet regG.metricProviders i).isSome)).filterMap
        (resolveMetricForId regG))) ∧
    (∀ m ∈ listMetrics regG (some ["github.m", "unknown.x"]),
      m.id ∈ ["github.m", "unknown.x"] ∧
      (assocGet regG.metricProviders m.id).isSome = true) ∧
    (∃ out, getLatestEntityMetrics [rowA] regG (some entA) mfOk
      "component:default/service-a" (some ["github.m", "unknown.x"]) none =
      .ok out) :=
  C10_unknown_ids_silently_omitted [rowA] regG ["github.m", "unknown.x"]
    entA mfOk "component:default/service-a" none (by rfl) (by decide)

end Scorecard
